import Mathlib

/-!
Verification of the inventory ledger of `gestionale-magazzino`
(`src/backend.py`), as a shallow embedding.

The SQLite tables are modelled as Lean lists of rows, kept in the order the
statements of `backend.py` produce (an `INSERT` appends at the end of the
list, an `UPDATE` maps over all matching rows in place, a `DELETE` filters).
`NULL`-able columns are `Option` types.  Each function of `backend.py` that
the claims need becomes a Lean function of the same name over a `DB` value;
`datetime(now)` is made explicit through a `now : String` argument.
Operations that raise `ValueError` return `Except`; raising happens in the
source before any mutation, so the error branches carry no state and the
pre-state is, by construction, unchanged.

Columns of `prodotti` that no modelled operation reads or writes
(`nome`, `categoria`, `materiali`, `descrizione`, `costo_unitario`,
`prezzo_range`, `produzione`, `created_at`) are carried untouched by every
modelled statement and are omitted from the record.
-/

namespace Magazzino

/-! ### Python `str.strip` and SQL `TRIM`

`str.strip()` removes leading and trailing whitespace; SQLite `TRIM(x)`
removes only leading and trailing space characters.  Both are modelled on
the character list of the string. -/

/-- ASCII whitespace stripped by Python `str.strip()`. -/
def isPySpace (c : Char) : Bool :=
  decide (c = ' ' ∨ c = '\t' ∨ c = '\n' ∨ c = '\r' ∨ c = '\x0b' ∨ c = '\x0c')

/-- Remove the longest prefix and suffix of elements satisfying `p`. -/
def stripL {A : Type} (p : A → Bool) (l : List A) : List A :=
  ((l.dropWhile p).reverse.dropWhile p).reverse

/-- Python `s.strip()`. -/
def pyStrip (s : String) : String := ⟨stripL isPySpace s.data⟩

/-- SQLite `TRIM(s)` (strips spaces only). -/
def sqlTrim (s : String) : String := ⟨stripL (fun c => decide (c = ' ')) s.data⟩

/-- Normalisation `(colore or "").strip() or "DEFAULT"`, applied by
`ensure_stock_colore`, `carica_stock_colore`, `scarica_vendita_colore`,
`aggiorna_taglia_colore`, `set_stock_colore` and the legacy migration. -/
def normStr (s : String) : String :=
  if pyStrip s = "" then "DEFAULT" else pyStrip s

/-! ### Case-insensitive ordering (`ORDER BY ... COLLATE NOCASE`) -/

/-- SQLite `NOCASE` folds the ASCII letters `A`-`Z` only. -/
def lowerChar (c : Char) : Char :=
  if 'A' ≤ c ∧ c ≤ 'Z' then Char.ofNat (c.toNat + 32) else c

/-- Lexicographic order on character lists. -/
def ltCharList : List Char → List Char → Bool
  | [], [] => false
  | [], _ :: _ => true
  | _ :: _, [] => false
  | a :: as, b :: bs => if a < b then true else if b < a then false else ltCharList as bs

/-- Comparison `a < b` under the `NOCASE` collation. -/
def ltNocase (a b : String) : Bool :=
  ltCharList (a.data.map lowerChar) (b.data.map lowerChar)

/-- Insertion step of `sortNocase`. -/
def insNocase (a : String) : List String → List String
  | [] => [a]
  | b :: bs => if ltNocase a b then a :: b :: bs else b :: insNocase a bs

/-- SQLite `ORDER BY colore COLLATE NOCASE`, as an insertion sort. -/
def sortNocase : List String → List String
  | [] => []
  | a :: as => insNocase a (sortNocase as)

/-! ### Data model (`init_database` tables) -/

/-- A row of the `prodotti` table (the columns the modelled operations
touch; the remaining columns are carried unchanged by every modelled
statement).  `colore` is the legacy single-colour column. -/
structure Prodotto where
  codice : String
  colore : Option String
  tipo_taglie : Option String
  venduti : Option Int
  updated_at : Option String
deriving DecidableEq

/-- A row of the `taglie_prodotti` table: one stock cell.  There is no
`UNIQUE` constraint on `(codice_prodotto, colore, taglia)`, so duplicate
rows are representable, exactly as in SQLite. -/
structure RigaTaglia where
  codice_prodotto : String
  colore : Option String
  taglia : String
  quantita : Option Int
deriving DecidableEq

/-- The database state: `prodotti`, `colori_prodotti`
(rows `(codice_prodotto, colore)`, `UNIQUE` on the pair) and
`taglie_prodotti`. -/
@[ext]
structure DB where
  prodotti : List Prodotto
  colori_prodotti : List (String × String)
  taglie_prodotti : List RigaTaglia
deriving DecidableEq

/-- Predicate `WHERE codice_prodotto=? AND colore=? AND taglia=?` on a stock row.
A SQL comparison with a `NULL` colour never matches. -/
def matchCella (cod col taglia : String) (r : RigaTaglia) : Bool :=
  decide (r.codice_prodotto = cod ∧ r.colore = some col ∧ r.taglia = taglia)

/-- Statement `INSERT OR IGNORE INTO colori_prodotti VALUES(?,?)` under the
`UNIQUE(codice_prodotto, colore)` constraint. -/
def insertOrIgnoreColore (l : List (String × String)) (x : String × String) :
    List (String × String) :=
  if x ∈ l then l else l ++ [x]

/-- Statement `UPDATE prodotti SET updated_at=datetime(now) WHERE codice=?`. -/
def touchProdotto (l : List Prodotto) (cod now : String) : List Prodotto :=
  l.map fun p => if p.codice = cod then { p with updated_at := some now } else p

/-- Function `_taglie_for_tipo`: canonical size labels of a scheme tag; anything
other than `LETTERE` (case-insensitively) falls back to the numeric list.
Python upper-cases with `.upper()`; the tags that occur are ASCII. -/
def taglie_for_tipo (tipo_taglie : String) : List String :=
  if ⟨tipo_taglie.data.map Char.toUpper⟩ = ("LETTERE" : String) then
    ["XS", "S", "M", "L", "XL"]
  else
    ["38", "40", "42", "44", "46", "48", "50", "52"]

/-! ### Errors

The module signals every failure with `raise ValueError(msg)`; the three
raise sites of `carica_stock_colore` / `scarica_vendita_colore` are told
apart by their messages and modelled as constructors.  `insufficientStock`
carries the two numbers interpolated into
`"Stock insufficiente: disponibili .., richiesti .."`. -/
inductive StockError where
  /-- Message `"La quantità da caricare/scaricare deve essere almeno 1."` -/
  | validationError : StockError
  /-- Message `"Taglia non trovata per questo prodotto/colore. ..."` -/
  | notFound : StockError
  /-- Message of `"Stock insufficiente: disponibili .., richiesti .."` -/
  | insufficientStock (disponibili richiesti : Int) : StockError
deriving DecidableEq

instance {ε α : Type} [DecidableEq ε] [DecidableEq α] : DecidableEq (Except ε α) := fun a b =>
  match a, b with
  | .error e, .error f =>
      if h : e = f then .isTrue (by rw [h]) else .isFalse (by intro hc; cases hc; exact h rfl)
  | .error _, .ok _ => .isFalse (by intro hc; cases hc)
  | .ok _, .error _ => .isFalse (by intro hc; cases hc)
  | .ok x, .ok y =>
      if h : x = y then .isTrue (by rw [h]) else .isFalse (by intro hc; cases hc; exact h rfl)

/-! ### Operations -/

/-- The row-insertion loop of `ensure_stock_colore`: for each size label,
count the matching rows and insert a zero-quantity row when there is
none. -/
def ensureRighe (cod col : String) : List String → List RigaTaglia → List RigaTaglia
  | [], righe => righe
  | t :: ts, righe =>
      ensureRighe cod col ts
        (if righe.countP (matchCella cod col t) = 0 then
          righe ++ [⟨cod, some col, t, some 0⟩]
        else righe)

/-- Operation `ensure_stock_colore(codice_prodotto, colore, tipo_taglie)`
(backend.py:283-317): normalises the colour, registers it in
`colori_prodotti`, inserts a zero row for every missing size of the scheme
and touches the product timestamp.  Existing rows are never modified. -/
def ensure_stock_colore (db : DB) (codice_prodotto colore tipo_taglie now : String) : DB :=
  let col := normStr colore
  { prodotti := touchProdotto db.prodotti codice_prodotto now,
    colori_prodotti := insertOrIgnoreColore db.colori_prodotti (codice_prodotto, col),
    taglie_prodotti := ensureRighe codice_prodotto col (taglie_for_tipo tipo_taglie) db.taglie_prodotti }

/-- Operation `reset_stock_prodotto(codice_prodotto, tipo_taglie)`
(backend.py:319-341): deletes every stock row of the product, reads the
registered colours (`ORDER BY colore COLLATE NOCASE`) and recreates the
stock through `ensure_stock_colore` for each of them. -/
def reset_stock_prodotto (db : DB) (codice_prodotto tipo_taglie now : String) : DB :=
  let db1 : DB :=
    { db with
      taglie_prodotti :=
        db.taglie_prodotti.filter (fun r => decide (¬ r.codice_prodotto = codice_prodotto)) }
  let colori :=
    sortNocase ((db1.colori_prodotti.filter
      (fun pc => decide (pc.1 = codice_prodotto))).map (fun pc => pc.2))
  colori.foldl (fun d c => ensure_stock_colore d codice_prodotto c tipo_taglie now) db1

/-- Operation `carica_stock_colore(codice_prodotto, colore, taglia, qty)`
(backend.py:431-467).  `qty < 1` raises before any query; a missing cell
raises after the `SELECT`; otherwise the `UPDATE` adds `qty` to
`COALESCE(quantita, 0)` of every matching row, the product timestamp is
touched and the re-`SELECT`ed first matching quantity is returned.  The
raises happen before any mutation, so the error branches carry no state. -/
def carica_stock_colore (db : DB) (codice_prodotto colore taglia : String)
    (qty : Int) (now : String) : Except StockError (DB × Int) :=
  if qty < 1 then .error .validationError
  else
    let col := normStr colore
    match db.taglie_prodotti.find? (matchCella codice_prodotto col taglia) with
    | none => .error .notFound
    | some _ =>
        let righe := db.taglie_prodotti.map fun r =>
          if matchCella codice_prodotto col taglia r then
            { r with quantita := some (r.quantita.getD 0 + qty) }
          else r
        let db' : DB :=
          { prodotti := touchProdotto db.prodotti codice_prodotto now,
            colori_prodotti := db.colori_prodotti,
            taglie_prodotti := righe }
        let new_q := ((righe.find? (matchCella codice_prodotto col taglia)).map
          (fun r => r.quantita.getD 0)).getD 0
        .ok (db', new_q)

/-- Operation `scarica_vendita_colore(codice_prodotto, colore, taglia, qty)`
(backend.py:470-511).  `qty < 1` raises; a missing cell raises; a current
quantity below `qty` raises `"Stock insufficiente: disponibili {attuale},
richiesti {qty}."`; otherwise every matching row is set to
`attuale - qty`, `prodotti.venduti` is bumped by `qty` together with the
timestamp, and the new quantity is returned.  All raises happen before any
mutation. -/
def scarica_vendita_colore (db : DB) (codice_prodotto colore taglia : String)
    (qty : Int) (now : String) : Except StockError (DB × Int) :=
  if qty < 1 then .error .validationError
  else
    let col := normStr colore
    match db.taglie_prodotti.find? (matchCella codice_prodotto col taglia) with
    | none => .error .notFound
    | some row =>
        let attuale := row.quantita.getD 0
        if attuale < qty then .error (.insufficientStock attuale qty)
        else
          let nuova := attuale - qty
          let righe := db.taglie_prodotti.map fun r =>
            if matchCella codice_prodotto col taglia r then
              { r with quantita := some nuova }
            else r
          let prodotti := db.prodotti.map fun p =>
            if p.codice = codice_prodotto then
              { p with venduti := some (p.venduti.getD 0 + qty), updated_at := some now }
            else p
          .ok ({ prodotti := prodotti, colori_prodotti := db.colori_prodotti,
                 taglie_prodotti := righe }, nuova)

/-- Operation `aggiorna_taglia_colore(codice_prodotto, colore, taglia, nuova_quantita)`
(backend.py:417-428): writes `int(nuova_quantita)` into every matching row
without any check and touches the product timestamp. -/
def aggiorna_taglia_colore (db : DB) (codice_prodotto colore taglia : String)
    (nuova_quantita : Int) (now : String) : DB :=
  let col := normStr colore
  { prodotti := touchProdotto db.prodotti codice_prodotto now,
    colori_prodotti := db.colori_prodotti,
    taglie_prodotti := db.taglie_prodotti.map fun r =>
      if matchCella codice_prodotto col taglia r then
        { r with quantita := some nuova_quantita }
      else r }

/-- Operation `set_stock_colore(codice_prodotto, colore, mappa_taglie_quantita)`
(backend.py:1004-1033): for each entry, a blank size is skipped, the value
is coerced with `int(..)` (`none` models a value `int` rejects, coerced to
`0`) and clamped at `0`; matching rows are updated, and a row is inserted
when the `UPDATE` touched none (`cur.rowcount == 0`). -/
def set_stock_colore (db : DB) (codice_prodotto colore : String)
    (mappa_taglie_quantita : List (String × Option Int)) : DB :=
  let col := normStr colore
  mappa_taglie_quantita.foldl (fun d tq =>
    let taglia := pyStrip tq.1
    if taglia = "" then d
    else
      let q : Int := match tq.2 with
        | none => 0
        | some n => if n < 0 then 0 else n
      if d.taglie_prodotti.countP (matchCella codice_prodotto col taglia) = 0 then
        { d with taglie_prodotti := d.taglie_prodotti ++ [⟨codice_prodotto, some col, taglia, some q⟩] }
      else
        { d with taglie_prodotti := d.taglie_prodotti.map fun r =>
            if matchCella codice_prodotto col taglia r then { r with quantita := some q } else r })
    db

/-- Operation `rinomina_colore(codice_prodotto, vecchio, nuovo)` (backend.py:221-262):
both labels are stripped and a blank one makes the call a no-op; when the
new label is already registered the old registration is deleted, otherwise
it is renamed in place; in both cases every stock row of the old colour is
re-pointed to the new one and the product timestamp is touched. -/
def rinomina_colore (db : DB) (codice_prodotto vecchio nuovo now : String) : DB :=
  let v := pyStrip vecchio
  let n := pyStrip nuovo
  if v = "" ∨ n = "" then db
  else
    let exists_new :=
      0 < db.colori_prodotti.countP (fun pc => decide (pc.1 = codice_prodotto ∧ pc.2 = n))
    let colori :=
      if exists_new then
        db.colori_prodotti.filter (fun pc => decide (¬ (pc.1 = codice_prodotto ∧ pc.2 = v)))
      else
        db.colori_prodotti.map (fun pc =>
          if pc.1 = codice_prodotto ∧ pc.2 = v then (codice_prodotto, n) else pc)
    { prodotti := touchProdotto db.prodotti codice_prodotto now,
      colori_prodotti := colori,
      taglie_prodotti := db.taglie_prodotti.map fun r =>
        if r.codice_prodotto = codice_prodotto ∧ r.colore = some v then
          { r with colore := some n }
        else r }

/-- Operation `lista_colori(codice_prodotto)` (backend.py:192-204).  The function
reads the registered colours sorted `COLLATE NOCASE` into `rows`, but the
next line, `colori = [c for c in colori if c != "DEFAULT"]`, evaluates the
unbound local name `colori`: every call raises `NameError` before reaching
`return rows`.  The `Except.error` value models that exception. -/
def lista_colori (db : DB) (codice_prodotto : String) : Except String (List String) :=
  let _rows :=
    sortNocase ((db.colori_prodotti.filter
      (fun pc => decide (pc.1 = codice_prodotto))).map (fun pc => pc.2))
  Except.error "NameError"

/-! ### Legacy migration (`init_database`, backend.py:162-182) -/

/-- Derived colour `trim(legacyColor) or "DEFAULT"` for a product row
(`COALESCE(colore, ..)` of the legacy column, stripped, defaulting). -/
def derivaColore (p : Prodotto) : String := normStr (p.colore.getD "")

/-- Condition `colore IS NULL OR TRIM(colore) = ''` on a stock row (`NULL` coalesces
to the empty string, whose `TRIM` is empty). -/
def rigaBlank (r : RigaTaglia) : Bool :=
  decide (sqlTrim (r.colore.getD "") = "")

/-- Effect of one migration pass on one stock row for product `p`. -/
def migraRigaProdotto (p : Prodotto) (r : RigaTaglia) : RigaTaglia :=
  if r.codice_prodotto = p.codice ∧ rigaBlank r then
    { r with colore := some (derivaColore p) }
  else r

/-- One iteration of the migration loop: register the derived colour
(`INSERT OR IGNORE`) and assign it to the blank stock rows of the
product. -/
def migra_prodotto (d : DB) (p : Prodotto) : DB :=
  { d with
    colori_prodotti := insertOrIgnoreColore d.colori_prodotti (p.codice, derivaColore p),
    taglie_prodotti := d.taglie_prodotti.map (migraRigaProdotto p) }

/-- The data-migration step of `init_database` (backend.py:162-182) when no
storage error occurs: the loop body runs for every product row. -/
def migrazione_colori (db : DB) : DB :=
  db.prodotti.foldl migra_prodotto db

/-- The migration loop under its surrounding `try/except`.  `fails cod`
abstracts a storage error raised while processing the product `cod`
(modelled as raised before that product mutates anything).  The single
`except: pass` sits outside the `for` loop, so the first failure ends the
whole pass, keeping only the mutations already made. -/
def migrazione_try_loop (fails : String → Bool) : List Prodotto → DB → DB
  | [], d => d
  | p :: ps, d =>
      if fails p.codice then d
      else migrazione_try_loop fails ps (migra_prodotto d p)

/-- The data-migration step including its `try/except` wrapper. -/
def migrazione_colori_try (fails : String → Bool) (db : DB) : DB :=
  migrazione_try_loop fails db.prodotti db

/-! ### Observables -/

/-- Value `COALESCE(quantita, 0)` of a row; also Python `int(x or 0)`. -/
def qval (r : RigaTaglia) : Int := r.quantita.getD 0

/-- Quantity of the first row matching `(cod, col, taglia)` — what
`cur.fetchone()` sees. -/
def cellQty (db : DB) (cod col taglia : String) : Option Int :=
  (db.taglie_prodotti.find? (matchCella cod col taglia)).map qval

/-- Counter `COALESCE(venduti, 0)` of the first product row with code `cod`. -/
def vendutiDi (db : DB) (cod : String) : Option Int :=
  (db.prodotti.find? (fun p => decide (p.codice = cod))).map (fun p => p.venduti.getD 0)

/-- The size labels present for `(cod, col)`, with multiplicity. -/
def taglieDi (db : DB) (cod col : String) : List String :=
  (db.taglie_prodotti.filter
    (fun r => decide (r.codice_prodotto = cod ∧ r.colore = some col))).map
    (fun r => r.taglia)

/-- Invariant: every stock quantity is non-negative (a `NULL` quantity
reads as `0` everywhere in the source). -/
def dbNonNeg (db : DB) : Prop :=
  ∀ r ∈ db.taglie_prodotti, 0 ≤ qval r

instance (db : DB) : Decidable (dbNonNeg db) := by
  unfold dbNonNeg; infer_instance

/-! ### Derived definitions and concrete databases used by the claims -/

/-- The row transformation the whole migration pass applies: the first
product (in table order) whose code matches a blank row gives that row its
derived colour; non-blank rows are untouched. -/
def migraRiga : List Prodotto → RigaTaglia → RigaTaglia
  | [], r => r
  | p :: ps, r =>
      if r.codice_prodotto = p.codice ∧ rigaBlank r then
        { r with colore := some (derivaColore p) }
      else migraRiga ps r

/-- Concrete database used by the C3 counterexample and several
witnesses: one registered colour with a stray stock row of label `99`. -/
def dbC3cex : DB :=
  ⟨[⟨"P1", some "Rosso", some "NUMERI", some 0, none⟩], [("P1", "Rosso")],
   [⟨"P1", some "Rosso", "99", some 5⟩]⟩

/-- Concrete database for the C2 counterexample and witness. -/
def dbC2 : DB :=
  ⟨[⟨"P1", some "Rosso", some "NUMERI", some 0, none⟩], [("P1", "Rosso")],
   [⟨"P1", some "Rosso", "42", some 0⟩]⟩

/-- Concrete database for the C7 witness: a legacy product `Rosso` with a
blank-colour stock row and an already-migrated non-blank row. -/
def dbC7 : DB :=
  ⟨[⟨"P1", some "Rosso", some "NUMERI", some 0, none⟩], [],
   [⟨"P1", none, "42", some 5⟩, ⟨"P1", some "Blu", "44", some 1⟩]⟩

/-- Two-product database for the C8 counterexample: only `A` fails. -/
def dbC8 : DB :=
  ⟨[⟨"A", some "Rosso", some "NUMERI", some 0, none⟩,
    ⟨"B", some "Blu", some "NUMERI", some 0, none⟩], [], []⟩

/-- The abstract failure pattern of the C8 counterexample: a storage error
while processing product `A` only. -/
def failsA : String → Bool := fun c => decide (c = "A")

/-- A database holding the internal placeholder label for the C9 bug
exhibit. -/
def dbC9 : DB :=
  ⟨[⟨"P1", some "", some "NUMERI", some 0, none⟩],
   [("P1", "DEFAULT"), ("P1", "Rosso")], []⟩

/-- Database for the C10 counterexample: both colours `A` and `B` are
registered and both have a cell for size `M`. -/
def dbC10 : DB :=
  ⟨[⟨"P1", some "A", some "NUMERI", some 0, none⟩], [("P1", "A"), ("P1", "B")],
   [⟨"P1", some "A", "M", some 1⟩, ⟨"P1", some "B", "M", some 2⟩]⟩

/-! ## Lemmas about the string primitives -/

theorem dropWhile_head_false {A : Type} (p : A → Bool) (l : List A) (a : A) (as : List A)
    (h : l.dropWhile p = a :: as) : p a = false := by
  induction l with
  | nil => simp at h
  | cons x xs ih =>
    rw [List.dropWhile_cons] at h
    by_cases hx : p x = true
    · simp [hx] at h; exact ih h
    · simp [hx] at h
      simp [← h.1]
      simpa using hx

theorem mem_dropWhile_of_false {A : Type} (p : A → Bool) (l : List A) (a : A)
    (hm : a ∈ l) (hp : p a = false) : a ∈ l.dropWhile p := by
  induction l with
  | nil => simp at hm
  | cons x xs ih =>
    rw [List.dropWhile_cons]
    by_cases hx : p x = true
    · simp [hx]
      rcases List.mem_cons.mp hm with rfl | hmem
      · rw [hp] at hx; simp at hx
      · exact ih hmem
    · simp [hx]
      simpa using hm

theorem mem_stripL_of_false {A : Type} (p : A → Bool) (l : List A) (a : A)
    (hm : a ∈ l) (hp : p a = false) : a ∈ stripL p l := by
  unfold stripL
  rw [List.mem_reverse]
  apply mem_dropWhile_of_false _ _ _ _ hp
  rw [List.mem_reverse]
  exact mem_dropWhile_of_false _ _ _ hm hp

theorem stripL_ne_nil {A : Type} (p : A → Bool) (l : List A)
    (h : stripL p l ≠ []) : ∃ a ∈ stripL p l, p a = false := by
  unfold stripL at h ⊢
  rcases hd : (l.dropWhile p).reverse.dropWhile p with _ | ⟨b, bs⟩
  · rw [hd] at h; simp at h
  · refine ⟨b, ?_, dropWhile_head_false _ _ _ _ hd⟩
    rw [List.mem_reverse]
    simp

theorem string_mk_eq_empty (l : List Char) : (⟨l⟩ : String) = "" ↔ l = [] := by
  constructor
  · intro h
    have := congrArg String.data h
    simpa using this
  · intro h; rw [h]

/-- A string with a nonempty Python strip also has a nonempty SQL trim:
the first surviving character is not whitespace, hence not a space. -/
theorem sqlTrim_pyStrip_ne (s : String) (h : pyStrip s ≠ "") :
    sqlTrim (pyStrip s) ≠ "" := by
  show (⟨stripL (fun c => decide (c = ' ')) (stripL isPySpace s.data)⟩ : String) ≠ ""
  have h2 : stripL isPySpace s.data ≠ [] := by
    intro hc
    apply h
    show (⟨stripL isPySpace s.data⟩ : String) = ""
    rw [string_mk_eq_empty]
    exact hc
  obtain ⟨a, hmem, hfa⟩ := stripL_ne_nil _ _ h2
  have hsp : (decide (a = ' ')) = false := by
    rcases Decidable.em (a = ' ') with rfl | hne
    · simp [isPySpace] at hfa
    · simpa using hne
  intro hnil
  rw [string_mk_eq_empty] at hnil
  have := mem_stripL_of_false (fun c => decide (c = ' ')) _ a hmem hsp
  rw [hnil] at this
  simp at this

/-- Function `normStr` always yields a label that is non-blank in the SQL sense. -/
theorem sqlTrim_normStr_ne (s : String) : sqlTrim (normStr s) ≠ "" := by
  unfold normStr
  by_cases h : pyStrip s = ""
  · rw [if_pos h]; decide
  · rw [if_neg h]; exact sqlTrim_pyStrip_ne s h

/-! ## Lemmas about list primitives -/

theorem find?_map_pred {A : Type} (f : A → A) (p : A → Bool) (l : List A)
    (h : ∀ a, p (f a) = p a) : (l.map f).find? p = (l.find? p).map f := by
  induction l with
  | nil => rfl
  | cons x xs ih =>
    simp only [List.map_cons, List.find?_cons]
    rw [h x]
    cases hx : p x <;> simp [ih]

theorem countP_or_disj {A : Type} (a b : A → Bool) (l : List A)
    (h : ∀ x ∈ l, ¬(a x = true ∧ b x = true)) :
    l.countP (fun x => a x || b x) = l.countP a + l.countP b := by
  induction l with
  | nil => rfl
  | cons x xs ih =>
    have hx := h x (by simp)
    simp only [List.countP_cons]
    rw [ih (fun y hy => h y (by simp [hy]))]
    cases ha : a x <;> cases hb : b x <;> simp_all <;> omega

theorem mem_insertOrIgnore_self (l : List (String × String)) (x : String × String) :
    x ∈ insertOrIgnoreColore l x := by
  unfold insertOrIgnoreColore
  by_cases h : x ∈ l <;> simp [h]

theorem mem_insertOrIgnore_of_mem (l : List (String × String)) (x y : String × String)
    (h : y ∈ l) : y ∈ insertOrIgnoreColore l x := by
  unfold insertOrIgnoreColore
  by_cases hx : x ∈ l <;> simp [hx, h]

theorem insertOrIgnore_of_mem (l : List (String × String)) (x : String × String)
    (h : x ∈ l) : insertOrIgnoreColore l x = l := by
  unfold insertOrIgnoreColore
  simp [h]

theorem mem_insNocase (a b : String) (l : List String) :
    a ∈ insNocase b l ↔ a = b ∨ a ∈ l := by
  induction l with
  | nil => simp [insNocase]
  | cons x xs ih =>
    unfold insNocase
    by_cases h : ltNocase b x = true
    · simp [h]
    · simp only [if_neg h, List.mem_cons, ih]
      tauto

theorem mem_sortNocase (a : String) (l : List String) :
    a ∈ sortNocase l ↔ a ∈ l := by
  induction l with
  | nil => simp [sortNocase]
  | cons x xs ih =>
    unfold sortNocase
    rw [mem_insNocase, ih]
    simp

/-! ## Lemmas about `ensureRighe` and `ensure_stock_colore` -/

/-- Lemma: `ensure_stock_colore` only appends rows, and every appended row is a
zero-quantity cell of the requested colour with a label of the scheme. -/
theorem ensureRighe_append (cod col : String) (ts : List String) (righe : List RigaTaglia) :
    ∃ nuove, ensureRighe cod col ts righe = righe ++ nuove ∧
      ∀ r ∈ nuove, r.codice_prodotto = cod ∧ r.colore = some col ∧
        r.taglia ∈ ts ∧ r.quantita = some 0 := by
  induction ts generalizing righe with
  | nil => exact ⟨[], by simp [ensureRighe]⟩
  | cons t ts ih =>
    unfold ensureRighe
    by_cases hc : righe.countP (matchCella cod col t) = 0
    · rw [if_pos hc]
      obtain ⟨nuove, heq, hmem⟩ := ih (righe ++ [⟨cod, some col, t, some 0⟩])
      refine ⟨⟨cod, some col, t, some 0⟩ :: nuove, ?_, ?_⟩
      · rw [heq, List.append_assoc]; rfl
      · intro r hr
        rcases List.mem_cons.mp hr with rfl | hr2
        · exact ⟨rfl, rfl, by simp, rfl⟩
        · obtain ⟨h1, h2, h3, h4⟩ := hmem r hr2
          exact ⟨h1, h2, by simp [h3], h4⟩
    · rw [if_neg hc]
      obtain ⟨nuove, heq, hmem⟩ := ih righe
      refine ⟨nuove, heq, ?_⟩
      intro r hr
      obtain ⟨h1, h2, h3, h4⟩ := hmem r hr
      exact ⟨h1, h2, by simp [h3], h4⟩

theorem countP_le_ensureRighe (cod col : String) (ts : List String)
    (righe : List RigaTaglia) (p : RigaTaglia → Bool) :
    righe.countP p ≤ (ensureRighe cod col ts righe).countP p := by
  obtain ⟨nuove, heq, -⟩ := ensureRighe_append cod col ts righe
  rw [heq, List.countP_append]
  omega

/-- After the insertion loop every label of the list has a matching row. -/
theorem ensureRighe_covers (cod col : String) (ts : List String)
    (righe : List RigaTaglia) (t : String) (ht : t ∈ ts) :
    0 < (ensureRighe cod col ts righe).countP (matchCella cod col t) := by
  induction ts generalizing righe with
  | nil => simp at ht
  | cons u us ih =>
    unfold ensureRighe
    rcases List.mem_cons.mp ht with rfl | hts
    · refine lt_of_lt_of_le ?_ (countP_le_ensureRighe cod col us _ _)
      by_cases hc : righe.countP (matchCella cod col t) = 0
      · rw [if_pos hc, List.countP_append, List.countP_cons]
        have : matchCella cod col t ⟨cod, some col, t, some 0⟩ = true := by
          simp [matchCella]
        simp [this]
      · rw [if_neg hc]; omega
    · exact ih _ hts

/-- The insertion loop is the identity when every label already has a
matching row. -/
theorem ensureRighe_complete (cod col : String) (ts : List String)
    (righe : List RigaTaglia)
    (h : ∀ t ∈ ts, 0 < righe.countP (matchCella cod col t)) :
    ensureRighe cod col ts righe = righe := by
  induction ts with
  | nil => rfl
  | cons t ts ih =>
    unfold ensureRighe
    have ht := h t (by simp)
    rw [if_neg (by omega)]
    exact ih (fun u hu => h u (by simp [hu]))

theorem touch_touch (l : List Prodotto) (cod now : String) :
    touchProdotto (touchProdotto l cod now) cod now = touchProdotto l cod now := by
  unfold touchProdotto
  rw [List.map_map]
  congr 1
  funext p
  by_cases h : p.codice = cod <;> simp [h]

/-- Calling `ensure_stock_colore` twice with the same arguments changes
nothing the second time. -/
theorem ensure_stock_colore_idem (db : DB) (cod colore tipo now : String) :
    ensure_stock_colore (ensure_stock_colore db cod colore tipo now) cod colore tipo now =
      ensure_stock_colore db cod colore tipo now := by
  unfold ensure_stock_colore
  refine DB.ext ?_ ?_ ?_
  · exact touch_touch _ _ _
  · exact insertOrIgnore_of_mem _ _ (mem_insertOrIgnore_self _ _)
  · exact ensureRighe_complete _ _ _ _ (fun t ht => ensureRighe_covers _ _ _ _ t ht)

theorem matchCella_iff (cod col t : String) (r : RigaTaglia) :
    matchCella cod col t r = true ↔
      r.codice_prodotto = cod ∧ r.colore = some col ∧ r.taglia = t := by
  simp [matchCella]

theorem mem_taglieDi (db : DB) (cod col t : String) :
    t ∈ taglieDi db cod col ↔
      ∃ r ∈ db.taglie_prodotti,
        r.codice_prodotto = cod ∧ r.colore = some col ∧ r.taglia = t := by
  unfold taglieDi
  simp only [List.mem_map, List.mem_filter, decide_eq_true_eq]
  constructor
  · rintro ⟨r, ⟨hr, h1, h2⟩, rfl⟩; exact ⟨r, hr, h1, h2, rfl⟩
  · rintro ⟨r, hr, h1, h2, rfl⟩; exact ⟨r, ⟨hr, h1, h2⟩, rfl⟩

theorem countP_pos_match (l : List RigaTaglia) (cod col t : String) :
    0 < l.countP (matchCella cod col t) ↔
      ∃ r ∈ l, r.codice_prodotto = cod ∧ r.colore = some col ∧ r.taglia = t := by
  rw [List.countP_pos_iff]
  constructor
  · rintro ⟨r, hr, hm⟩; exact ⟨r, hr, (matchCella_iff cod col t r).mp hm⟩
  · rintro ⟨r, hr, hm⟩; exact ⟨r, hr, (matchCella_iff cod col t r).mpr hm⟩

/-- C3, amended: after `ensure_stock_colore` every canonical label of the
scheme has a cell for the normalised colour; every label present was
already present or is canonical (pre-existing labels outside the scheme
are kept, which is what the amendment allows for); when the pre-existing
labels all belong to the scheme, the label set is exactly the canonical
set; the pre-existing rows are kept verbatim (in particular their
quantities) and the added rows are zero-quantity canonical cells; the
colour is registered in `colori_prodotti`; a second identical call changes
nothing. -/
theorem ensure_stock_colore_spec (db : DB) (cod colore tipo now : String) :
    (∀ t ∈ taglie_for_tipo tipo,
        t ∈ taglieDi (ensure_stock_colore db cod colore tipo now) cod (normStr colore)) ∧
    (∀ t, t ∈ taglieDi (ensure_stock_colore db cod colore tipo now) cod (normStr colore) →
        t ∈ taglieDi db cod (normStr colore) ∨ t ∈ taglie_for_tipo tipo) ∧
    ((∀ t ∈ taglieDi db cod (normStr colore), t ∈ taglie_for_tipo tipo) →
        ∀ t, t ∈ taglieDi (ensure_stock_colore db cod colore tipo now) cod (normStr colore) ↔
          t ∈ taglie_for_tipo tipo) ∧
    (∃ nuove, (ensure_stock_colore db cod colore tipo now).taglie_prodotti =
        db.taglie_prodotti ++ nuove ∧
      ∀ r ∈ nuove, r.codice_prodotto = cod ∧ r.colore = some (normStr colore) ∧
        r.taglia ∈ taglie_for_tipo tipo ∧ r.quantita = some 0) ∧
    ((cod, normStr colore) ∈ (ensure_stock_colore db cod colore tipo now).colori_prodotti) ∧
    ensure_stock_colore (ensure_stock_colore db cod colore tipo now) cod colore tipo now =
      ensure_stock_colore db cod colore tipo now := by
  have htag : (ensure_stock_colore db cod colore tipo now).taglie_prodotti =
      ensureRighe cod (normStr colore) (taglie_for_tipo tipo) db.taglie_prodotti := rfl
  obtain ⟨nuove, heq, hmem⟩ :=
    ensureRighe_append cod (normStr colore) (taglie_for_tipo tipo) db.taglie_prodotti
  have hsub : ∀ t, t ∈ taglieDi (ensure_stock_colore db cod colore tipo now) cod (normStr colore) →
      t ∈ taglieDi db cod (normStr colore) ∨ t ∈ taglie_for_tipo tipo := by
    intro t ht
    obtain ⟨r, hr, h1, h2, h3⟩ := (mem_taglieDi _ _ _ _).mp ht
    rw [htag, heq] at hr
    rcases List.mem_append.mp hr with hold | hnew
    · exact Or.inl ((mem_taglieDi _ _ _ _).mpr ⟨r, hold, h1, h2, h3⟩)
    · obtain ⟨-, -, h6, -⟩ := hmem r hnew
      exact Or.inr (h3 ▸ h6)
  have hsup : ∀ t ∈ taglie_for_tipo tipo,
      t ∈ taglieDi (ensure_stock_colore db cod colore tipo now) cod (normStr colore) := by
    intro t ht
    have hcov := ensureRighe_covers cod (normStr colore) (taglie_for_tipo tipo)
      db.taglie_prodotti t ht
    rw [← htag] at hcov
    obtain ⟨r, hr, h1, h2, h3⟩ := (countP_pos_match _ _ _ _).mp hcov
    exact (mem_taglieDi _ _ _ _).mpr ⟨r, hr, h1, h2, h3⟩
  refine ⟨hsup, hsub, ?_, ⟨nuove, htag.trans heq, hmem⟩,
    mem_insertOrIgnore_self _ _, ensure_stock_colore_idem db cod colore tipo now⟩
  intro hpure t
  constructor
  · intro ht
    rcases hsub t ht with h | h
    · exact hpure t h
    · exact h
  · exact hsup t

/-- C3 counterexample: a pre-existing cell with label `99`, outside the
`NUMERI` scheme, survives `ensure_stock_colore`, so the resulting label set
is strictly larger than the canonical one and does not "exactly equal"
it as the claim states. -/
theorem ensure_stock_colore_non_esatto :
    "99" ∈ taglieDi (ensure_stock_colore dbC3cex "P1" "Rosso" "NUMERI" "t1") "P1" "Rosso" ∧
    "99" ∉ taglie_for_tipo "NUMERI" := by decide

/-- Witness for the amended C3 at a concrete input. -/
theorem ensure_stock_colore_spec_witness :
    "42" ∈ taglieDi (ensure_stock_colore dbC3cex "P1" "Rosso" "NUMERI" "t1") "P1" (normStr "Rosso") :=
  (ensure_stock_colore_spec dbC3cex "P1" "Rosso" "NUMERI" "t1").1 "42" (by decide)

/-! ## Lemmas about `reset_stock_prodotto` -/

theorem normStr_of_trimmed (c : String) (h1 : pyStrip c = c) (h2 : c ≠ "") :
    normStr c = c := by
  unfold normStr
  rw [h1, if_neg h2]

theorem foldEnsure_taglie (cod tipo now : String) (cs : List String) (d : DB) :
    ∃ nuove,
      (cs.foldl (fun d c => ensure_stock_colore d cod c tipo now) d).taglie_prodotti =
        d.taglie_prodotti ++ nuove ∧
      ∀ r ∈ nuove, r.codice_prodotto = cod ∧ r.taglia ∈ taglie_for_tipo tipo ∧
        r.quantita = some 0 := by
  induction cs generalizing d with
  | nil => exact ⟨[], by simp⟩
  | cons c cs ih =>
    obtain ⟨nuove1, heq1, hmem1⟩ :=
      ensureRighe_append cod (normStr c) (taglie_for_tipo tipo) d.taglie_prodotti
    obtain ⟨nuove2, heq2, hmem2⟩ := ih (ensure_stock_colore d cod c tipo now)
    refine ⟨nuove1 ++ nuove2, ?_, ?_⟩
    · rw [List.foldl_cons, heq2]
      show ensureRighe cod (normStr c) (taglie_for_tipo tipo) d.taglie_prodotti ++ nuove2 =
        d.taglie_prodotti ++ (nuove1 ++ nuove2)
      rw [heq1, List.append_assoc]
    · intro r hr
      rcases List.mem_append.mp hr with h | h
      · obtain ⟨h1, -, h3, h4⟩ := hmem1 r h
        exact ⟨h1, h3, h4⟩
      · exact hmem2 r h

theorem foldEnsure_countP_le (cod tipo now : String) (cs : List String) (d : DB)
    (p : RigaTaglia → Bool) :
    d.taglie_prodotti.countP p ≤
      (cs.foldl (fun d c => ensure_stock_colore d cod c tipo now) d).taglie_prodotti.countP p := by
  obtain ⟨nuove, heq, -⟩ := foldEnsure_taglie cod tipo now cs d
  rw [heq, List.countP_append]
  omega

theorem foldEnsure_covers (cod tipo now : String) (cs : List String) (d : DB)
    (c : String) (hc : c ∈ cs) (t : String) (ht : t ∈ taglie_for_tipo tipo) :
    0 < (cs.foldl (fun d c => ensure_stock_colore d cod c tipo now)
          d).taglie_prodotti.countP (matchCella cod (normStr c) t) := by
  induction cs generalizing d with
  | nil => simp at hc
  | cons u us ih =>
    rw [List.foldl_cons]
    rcases List.mem_cons.mp hc with rfl | hus
    · refine lt_of_lt_of_le ?_ (foldEnsure_countP_le cod tipo now us _ _)
      show 0 < (ensureRighe cod (normStr c) (taglie_for_tipo tipo)
        d.taglie_prodotti).countP (matchCella cod (normStr c) t)
      exact ensureRighe_covers _ _ _ _ t ht
    · exact ih _ hus

theorem foldEnsure_colori (cod tipo now : String) (cs : List String) (d : DB)
    (h : ∀ c ∈ cs, (cod, normStr c) ∈ d.colori_prodotti) :
    (cs.foldl (fun d c => ensure_stock_colore d cod c tipo now)
      d).colori_prodotti = d.colori_prodotti := by
  induction cs generalizing d with
  | nil => rfl
  | cons c cs ih =>
    rw [List.foldl_cons]
    have hstep : (ensure_stock_colore d cod c tipo now).colori_prodotti = d.colori_prodotti :=
      insertOrIgnore_of_mem _ _ (h c (by simp))
    rw [ih _ (fun u hu => by rw [hstep]; exact h u (by simp [hu])), hstep]

/-- Membership in the colour list that `reset_stock_prodotto` iterates
over. -/
theorem mem_colori_reset (db : DB) (cod c : String) :
    c ∈ sortNocase ((db.colori_prodotti.filter
        (fun pc => decide (pc.1 = cod))).map (fun pc => pc.2)) ↔
      (cod, c) ∈ db.colori_prodotti := by
  rw [mem_sortNocase]
  simp only [List.mem_map, List.mem_filter, decide_eq_true_eq]
  constructor
  · rintro ⟨pc, ⟨hmem, h1⟩, rfl⟩
    have : pc = (cod, pc.2) := by
      rw [← h1]
    rw [← this]
    exact hmem
  · intro h
    exact ⟨(cod, c), ⟨h, rfl⟩, rfl⟩

/-- C4: after `reset_stock_prodotto` every stock cell of the product has
quantity `0`; for every colour registered for the product before the call
(registered colours are stripped and non-empty, an invariant every write
to `colori_prodotti` maintains) the label set is exactly the canonical set
of the new scheme; and the registered colours are unchanged. -/
theorem reset_stock_prodotto_spec (db : DB) (cod tipo now : String)
    (hcol : ∀ pc ∈ db.colori_prodotti, pc.1 = cod → pyStrip pc.2 = pc.2 ∧ pc.2 ≠ "") :
    (∀ r ∈ (reset_stock_prodotto db cod tipo now).taglie_prodotti,
        r.codice_prodotto = cod → r.quantita = some 0) ∧
    (∀ c, (cod, c) ∈ db.colori_prodotti →
        ∀ t, t ∈ taglieDi (reset_stock_prodotto db cod tipo now) cod c ↔
          t ∈ taglie_for_tipo tipo) ∧
    (reset_stock_prodotto db cod tipo now).colori_prodotti = db.colori_prodotti := by
  have hreset : reset_stock_prodotto db cod tipo now =
      (sortNocase ((db.colori_prodotti.filter
        (fun pc => decide (pc.1 = cod))).map (fun pc => pc.2))).foldl
        (fun d c => ensure_stock_colore d cod c tipo now)
        { db with taglie_prodotti :=
            db.taglie_prodotti.filter (fun r => decide (¬ r.codice_prodotto = cod)) } := rfl
  set db1 : DB :=
    { db with taglie_prodotti :=
        db.taglie_prodotti.filter (fun r => decide (¬ r.codice_prodotto = cod)) } with hdb1
  set cs := sortNocase ((db.colori_prodotti.filter
    (fun pc => decide (pc.1 = cod))).map (fun pc => pc.2)) with hcs
  have hmemcs : ∀ c, c ∈ cs ↔ (cod, c) ∈ db.colori_prodotti := fun c =>
    mem_colori_reset db cod c
  have hbase : ∀ r ∈ db1.taglie_prodotti, ¬ r.codice_prodotto = cod := by
    intro r hr
    have := (List.mem_filter.mp hr).2
    simpa using this
  obtain ⟨nuove, heq, hmem⟩ := foldEnsure_taglie cod tipo now cs db1
  refine ⟨?_, ?_, ?_⟩
  · intro r hr hcod
    rw [hreset] at hr
    rw [heq] at hr
    rcases List.mem_append.mp hr with h | h
    · exact absurd hcod (hbase r h)
    · exact (hmem r h).2.2
  · intro c hc t
    have hcC := hcol (cod, c) hc rfl
    have hnorm : normStr c = c := normStr_of_trimmed c hcC.1 hcC.2
    constructor
    · intro ht
      obtain ⟨r, hr, h1, h2, h3⟩ := (mem_taglieDi _ _ _ _).mp ht
      rw [hreset, heq] at hr
      rcases List.mem_append.mp hr with h | h
      · exact absurd h1 (hbase r h)
      · exact h3 ▸ (hmem r h).2.1
    · intro ht
      have hcov := foldEnsure_covers cod tipo now cs db1 c ((hmemcs c).mpr hc) t ht
      rw [hnorm] at hcov
      rw [← hreset] at hcov
      obtain ⟨r, hr, h1, h2, h3⟩ := (countP_pos_match _ _ _ _).mp hcov
      exact (mem_taglieDi _ _ _ _).mpr ⟨r, hr, h1, h2, h3⟩
  · rw [hreset]
    have : db1.colori_prodotti = db.colori_prodotti := rfl
    rw [foldEnsure_colori cod tipo now cs db1 ?_, this]
    intro c hcmem
    have hcdb := (hmemcs c).mp hcmem
    have hcC := hcol (cod, c) hcdb rfl
    rw [normStr_of_trimmed c hcC.1 hcC.2, this]
    exact hcdb

/-- Witness for C4 at a concrete database. -/
theorem reset_stock_prodotto_spec_witness :
    (reset_stock_prodotto dbC3cex "P1" "LETTERE" "t2").colori_prodotti =
      dbC3cex.colori_prodotti :=
  (reset_stock_prodotto_spec dbC3cex "P1" "LETTERE" "t2" (by decide)).2.2

/-! ## Lemmas about `carica_stock_colore` and `scarica_vendita_colore` -/

theorem matchCella_set_quantita (cod col t : String) (r : RigaTaglia) (x : Option Int) :
    matchCella cod col t { r with quantita := x } = matchCella cod col t r := by
  simp [matchCella]

theorem find?_update_cella (l : List RigaTaglia) (cod col t : String)
    (f : RigaTaglia → Option Int) :
    (l.map (fun r => if matchCella cod col t r then { r with quantita := f r } else r)).find?
        (matchCella cod col t) =
      (l.find? (matchCella cod col t)).map
        (fun r => if matchCella cod col t r then { r with quantita := f r } else r) := by
  apply find?_map_pred
  intro r
  by_cases h : matchCella cod col t r = true
  · rw [if_pos h, matchCella_set_quantita, h]
  · rw [if_neg h]

theorem cellQty_some (db : DB) (cod col t : String) (q : Int)
    (hq : cellQty db cod col t = some q) :
    ∃ row, db.taglie_prodotti.find? (matchCella cod col t) = some row ∧
      row.quantita.getD 0 = q := by
  unfold cellQty at hq
  cases hf : db.taglie_prodotti.find? (matchCella cod col t) with
  | none => rw [hf] at hq; simp at hq
  | some r =>
      rw [hf] at hq
      simp only [Option.map] at hq
      refine ⟨r, rfl, ?_⟩
      simpa [qval] using hq

/-- C1: selling against a cell whose current quantity is `q`, with a
requested `qty ≥ 1`.  When `q < qty` the call fails with the
insufficient-stock error carrying both the available and the requested
amount; the source raises before any `UPDATE`, so nothing mutates (the
error branch of the embedding carries no state).  When `q ≥ qty` the cell
becomes `q - qty`, the cumulative `venduti` counter of the product grows by
exactly `qty` and the new quantity `q - qty` is returned. -/
theorem scarica_vendita_colore_spec (db : DB) (cod colore taglia : String)
    (q qty : Int) (now : String)
    (hq : cellQty db cod (normStr colore) taglia = some q) (hqty : 1 ≤ qty) :
    (q < qty →
      scarica_vendita_colore db cod colore taglia qty now =
        .error (.insufficientStock q qty)) ∧
    (qty ≤ q → ∃ db',
      scarica_vendita_colore db cod colore taglia qty now = .ok (db', q - qty) ∧
      cellQty db' cod (normStr colore) taglia = some (q - qty) ∧
      vendutiDi db' cod = (vendutiDi db cod).map (fun v => v + qty)) := by
  obtain ⟨row, hfind, hqv⟩ := cellQty_some db cod (normStr colore) taglia q hq
  have hnl : ¬ qty < 1 := by omega
  constructor
  · intro hlt
    simp only [scarica_vendita_colore, if_neg hnl, hfind]
    rw [hqv, if_pos hlt]
  · intro hge
    have hnotlt : ¬ row.quantita.getD 0 < qty := by omega
    refine ⟨⟨db.prodotti.map fun p =>
        if p.codice = cod then
          { p with venduti := some (p.venduti.getD 0 + qty), updated_at := some now }
        else p,
      db.colori_prodotti,
      db.taglie_prodotti.map fun r =>
        if matchCella cod (normStr colore) taglia r then
          { r with quantita := some (row.quantita.getD 0 - qty) }
        else r⟩, ?_, ?_, ?_⟩
    · simp only [scarica_vendita_colore, if_neg hnl, hfind]
      rw [if_neg hnotlt, hqv]
    · unfold cellQty
      rw [show (fun r => if matchCella cod (normStr colore) taglia r then
            { r with quantita := some (row.quantita.getD 0 - qty) }
          else r) = (fun r => if matchCella cod (normStr colore) taglia r then
            { r with quantita := (fun _ => some (row.quantita.getD 0 - qty)) r }
          else r) from rfl]
      show ((db.taglie_prodotti.map fun r =>
          if matchCella cod (normStr colore) taglia r then
            { r with quantita := (fun _ => some (row.quantita.getD 0 - qty)) r }
          else r).find? (matchCella cod (normStr colore) taglia)).map qval =
        some (q - qty)
      rw [find?_update_cella, hfind]
      have hmatch : matchCella cod (normStr colore) taglia row = true :=
        List.find?_some hfind
      simp [hmatch, qval, hqv]
    · unfold vendutiDi
      show ((db.prodotti.map fun p =>
          if p.codice = cod then
            { p with venduti := some (p.venduti.getD 0 + qty), updated_at := some now }
          else p).find? (fun p => decide (p.codice = cod))).map (fun p => p.venduti.getD 0) =
        ((db.prodotti.find? (fun p => decide (p.codice = cod))).map
          (fun p => p.venduti.getD 0)).map (fun v => v + qty)
      rw [find?_map_pred _ (fun p => decide (p.codice = cod)) db.prodotti ?hpred]
      case hpred =>
        intro p
        by_cases h : p.codice = cod <;> simp [h]
      cases hf : db.prodotti.find? (fun p => decide (p.codice = cod)) with
      | none => simp
      | some pr =>
          have hcod : pr.codice = cod := by
            have := List.find?_some hf
            simpa using this
          simp [hcod]

/-- Witness for C1: on a concrete cell holding `5`, selling `9` fails with
the error reporting available `5` and requested `9`. -/
theorem scarica_vendita_colore_spec_witness :
    scarica_vendita_colore dbC3cex "P1" "Rosso" "99" 9 "t3" =
      .error (.insufficientStock 5 9) :=
  (scarica_vendita_colore_spec dbC3cex "P1" "Rosso" "99" 5 9 "t3"
    (by decide) (by decide)).1 (by decide)

/-- C5: `carica_stock_colore` and `scarica_vendita_colore` reject a
non-positive quantity before touching anything (the validation raise is
the first statement of both functions), and with a positive quantity both
fail with the not-found error when no stock row matches the normalised
`(product, color, size)` key; in every error case the embedding returns
only the error, mirroring the source where each raise precedes every
mutation, so no state changes and no row is created. -/
theorem carica_scarica_errori (db : DB) (cod colore taglia : String)
    (qty : Int) (now : String) :
    (qty ≤ 0 →
      carica_stock_colore db cod colore taglia qty now = .error .validationError ∧
      scarica_vendita_colore db cod colore taglia qty now = .error .validationError) ∧
    (1 ≤ qty →
      db.taglie_prodotti.find? (matchCella cod (normStr colore) taglia) = none →
      carica_stock_colore db cod colore taglia qty now = .error .notFound ∧
      scarica_vendita_colore db cod colore taglia qty now = .error .notFound) := by
  constructor
  · intro hle
    have hlt : qty < 1 := by omega
    constructor
    · simp only [carica_stock_colore, if_pos hlt]
    · simp only [scarica_vendita_colore, if_pos hlt]
  · intro hge hfind
    have hnl : ¬ qty < 1 := by omega
    constructor
    · simp only [carica_stock_colore, if_neg hnl, hfind]
    · simp only [scarica_vendita_colore, if_neg hnl, hfind]

/-- Witness for C5 at a concrete database. -/
theorem carica_scarica_errori_witness :
    carica_stock_colore dbC3cex "P1" "Rosso" "99" 0 "t4" = .error .validationError ∧
    scarica_vendita_colore dbC3cex "P1" "Blu" "99" 2 "t4" = .error .notFound :=
  ⟨((carica_scarica_errori dbC3cex "P1" "Rosso" "99" 0 "t4").1 (by decide)).1,
   ((carica_scarica_errori dbC3cex "P1" "Blu" "99" 2 "t4").2 (by decide) (by decide)).2⟩

/-- C6: loading `qty ≥ 1` onto an existing cell holding `q ≥ 0` succeeds,
returns `q + qty` and stores `q + qty`; selling the same `qty` right after
succeeds, returns `q` and stores `q` again — the round trip restores the
prior quantity.  The results are observed through `Except.map` so the
intermediate states need not be named. -/
theorem carica_poi_scarica_spec (db : DB) (cod colore taglia : String)
    (q qty : Int) (now1 now2 : String)
    (hcell : cellQty db cod (normStr colore) taglia = some q)
    (hq : 0 ≤ q) (hqty : 1 ≤ qty) :
    (carica_stock_colore db cod colore taglia qty now1).map (fun x => x.2) =
      .ok (q + qty) ∧
    (carica_stock_colore db cod colore taglia qty now1).map
      (fun x => cellQty x.1 cod (normStr colore) taglia) = .ok (some (q + qty)) ∧
    (carica_stock_colore db cod colore taglia qty now1).map
      (fun x => (scarica_vendita_colore x.1 cod colore taglia qty now2).map
        (fun y => y.2)) = .ok (.ok q) ∧
    (carica_stock_colore db cod colore taglia qty now1).map
      (fun x => (scarica_vendita_colore x.1 cod colore taglia qty now2).map
        (fun y => cellQty y.1 cod (normStr colore) taglia)) = .ok (.ok (some q)) := by
  obtain ⟨row, hfind, hqv⟩ := cellQty_some db cod (normStr colore) taglia q hcell
  have hnl : ¬ qty < 1 := by omega
  have hupd : (fun r => if matchCella cod (normStr colore) taglia r then
        { r with quantita := some (r.quantita.getD 0 + qty) }
      else r) = (fun r => if matchCella cod (normStr colore) taglia r then
        { r with quantita := (fun r => some (r.quantita.getD 0 + qty)) r }
      else r) := rfl
  have hmatch : matchCella cod (normStr colore) taglia row = true :=
    List.find?_some hfind
  have hfind1 : ((db.taglie_prodotti.map fun r =>
      if matchCella cod (normStr colore) taglia r then
        { r with quantita := some (r.quantita.getD 0 + qty) }
      else r).find? (matchCella cod (normStr colore) taglia)) =
      some { row with quantita := some (row.quantita.getD 0 + qty) } := by
    rw [hupd, find?_update_cella, hfind]
    simp [hmatch]
  have hcar : carica_stock_colore db cod colore taglia qty now1 =
      .ok (⟨touchProdotto db.prodotti cod now1, db.colori_prodotti,
        db.taglie_prodotti.map fun r =>
          if matchCella cod (normStr colore) taglia r then
            { r with quantita := some (r.quantita.getD 0 + qty) }
          else r⟩, q + qty) := by
    simp only [carica_stock_colore, if_neg hnl, hfind]
    rw [hfind1]
    simp [qval, hqv]
  have hcell1 : cellQty (⟨touchProdotto db.prodotti cod now1, db.colori_prodotti,
      db.taglie_prodotti.map fun r =>
        if matchCella cod (normStr colore) taglia r then
          { r with quantita := some (r.quantita.getD 0 + qty) }
        else r⟩ : DB) cod (normStr colore) taglia = some (q + qty) := by
    unfold cellQty
    show ((db.taglie_prodotti.map fun r =>
        if matchCella cod (normStr colore) taglia r then
          { r with quantita := some (r.quantita.getD 0 + qty) }
        else r).find? (matchCella cod (normStr colore) taglia)).map qval = some (q + qty)
    rw [hfind1]
    simp [qval, hqv]
  obtain ⟨-, hok⟩ := scarica_vendita_colore_spec
    (⟨touchProdotto db.prodotti cod now1, db.colori_prodotti,
      db.taglie_prodotti.map fun r =>
        if matchCella cod (normStr colore) taglia r then
          { r with quantita := some (r.quantita.getD 0 + qty) }
        else r⟩ : DB) cod colore taglia (q + qty) qty now2 hcell1 hqty
  obtain ⟨db2, hsc, hcell2, -⟩ := hok (by omega)
  have hqsub : q + qty - qty = q := by omega
  rw [hqsub] at hsc hcell2
  refine ⟨?_, ?_, ?_, ?_⟩
  · rw [hcar]; rfl
  · rw [hcar]
    simp only [Except.map]
    rw [hcell1]
  · rw [hcar]
    simp only [Except.map]
    rw [hsc]
  · rw [hcar]
    simp only [Except.map]
    rw [hsc]
    simp only [Except.map]
    rw [hcell2]

/-- Witness for C6 at a concrete database: load 3 onto the cell holding 5,
then sell 3, landing back on 5. -/
theorem carica_poi_scarica_spec_witness :
    (carica_stock_colore dbC3cex "P1" "Rosso" "99" 3 "t5").map
      (fun x => (scarica_vendita_colore x.1 "P1" "Rosso" "99" 3 "t6").map
        (fun y => cellQty y.1 "P1" (normStr "Rosso") "99")) = .ok (.ok (some 5)) :=
  (carica_poi_scarica_spec dbC3cex "P1" "Rosso" "99" 5 3 "t5" "t6"
    (by decide) (by decide) (by decide)).2.2.2

/-! ## Non-negativity (C2) -/

theorem dbNonNeg_ensure (db : DB) (cod colore tipo now : String) (h : dbNonNeg db) :
    dbNonNeg (ensure_stock_colore db cod colore tipo now) := by
  intro r hr
  obtain ⟨nuove, heq, hmem⟩ :=
    ensureRighe_append cod (normStr colore) (taglie_for_tipo tipo) db.taglie_prodotti
  have hr2 : r ∈ db.taglie_prodotti ++ nuove := by
    rw [← heq]; exact hr
  rcases List.mem_append.mp hr2 with hold | hnew
  · exact h r hold
  · rw [qval, (hmem r hnew).2.2.2]
    simp

theorem dbNonNeg_foldEnsure (cod tipo now : String) (cs : List String) (d : DB)
    (h : dbNonNeg d) :
    dbNonNeg (cs.foldl (fun d c => ensure_stock_colore d cod c tipo now) d) := by
  induction cs generalizing d with
  | nil => exact h
  | cons c cs ih =>
    rw [List.foldl_cons]
    exact ih _ (dbNonNeg_ensure _ _ _ _ _ h)

theorem dbNonNeg_reset (db : DB) (cod tipo now : String) (h : dbNonNeg db) :
    dbNonNeg (reset_stock_prodotto db cod tipo now) := by
  apply dbNonNeg_foldEnsure
  intro r hr
  exact h r (List.mem_filter.mp hr).1

theorem qval_migraRigaProdotto (p : Prodotto) (r : RigaTaglia) :
    qval (migraRigaProdotto p r) = qval r := by
  unfold migraRigaProdotto
  by_cases h : r.codice_prodotto = p.codice ∧ rigaBlank r = true
  · rw [if_pos h]; rfl
  · rw [if_neg h]

theorem dbNonNeg_migra_prodotto (d : DB) (p : Prodotto) (h : dbNonNeg d) :
    dbNonNeg (migra_prodotto d p) := by
  intro r hr
  obtain ⟨r0, hr0, rfl⟩ := List.mem_map.mp hr
  rw [qval_migraRigaProdotto]
  exact h r0 hr0

theorem dbNonNeg_migrazione_loop (ps : List Prodotto) (d : DB) (h : dbNonNeg d) :
    dbNonNeg (ps.foldl migra_prodotto d) := by
  induction ps generalizing d with
  | nil => exact h
  | cons p ps ih =>
    rw [List.foldl_cons]
    exact ih _ (dbNonNeg_migra_prodotto d p h)

theorem dbNonNeg_set_stock (db : DB) (cod colore : String)
    (mappa : List (String × Option Int)) (h : dbNonNeg db) :
    dbNonNeg (set_stock_colore db cod colore mappa) := by
  unfold set_stock_colore
  induction mappa generalizing db with
  | nil => exact h
  | cons tq tqs ih =>
    rw [List.foldl_cons]
    apply ih
    by_cases hbl : pyStrip tq.1 = ""
    · rw [if_pos hbl]; exact h
    · rw [if_neg hbl]
      have hq0 : (0 : Int) ≤ (match tq.2 with
          | none => 0
          | some n => if n < 0 then 0 else n) := by
        rcases tq.2 with _ | n
        · simp
        · simp only
          by_cases hn : n < 0
          · rw [if_pos hn]
          · rw [if_neg hn]; omega
      by_cases hc : db.taglie_prodotti.countP
          (matchCella cod (normStr colore) (pyStrip tq.1)) = 0
      · rw [if_pos hc]
        intro r hr
        rcases List.mem_append.mp hr with hold | hnew
        · exact h r hold
        · have : r = ⟨cod, some (normStr colore), pyStrip tq.1,
              some (match tq.2 with
                | none => 0
                | some n => if n < 0 then 0 else n)⟩ := by
            simpa using hnew
          rw [this, qval]
          simpa using hq0
      · rw [if_neg hc]
        intro r hr
        obtain ⟨r0, hr0, rfl⟩ := List.mem_map.mp hr
        by_cases hm : matchCella cod (normStr colore) (pyStrip tq.1) r0 = true
        · rw [if_pos hm, qval]
          simpa using hq0
        · rw [if_neg hm]
          exact h r0 hr0

/-- C2, amended: starting from a state where every quantity is
non-negative, `ensure_stock_colore`, `reset_stock_prodotto`, a successful
`carica_stock_colore` or `scarica_vendita_colore`, `set_stock_colore`
(which clamps negative or unparsable values to 0) and the legacy migration
all keep every quantity non-negative; `aggiorna_taglia_colore` does so
only when the requested value is itself non-negative — it performs no
check and stores on an existing cell exactly the value it is given, so a
negative argument writes a negative quantity (the failure the
counterexample exhibits). -/
theorem operazioni_non_negative (db : DB) (h : dbNonNeg db) :
    (∀ cod colore tipo now, dbNonNeg (ensure_stock_colore db cod colore tipo now)) ∧
    (∀ cod tipo now, dbNonNeg (reset_stock_prodotto db cod tipo now)) ∧
    (∀ cod colore taglia qty now db2 r,
      carica_stock_colore db cod colore taglia qty now = .ok (db2, r) → dbNonNeg db2) ∧
    (∀ cod colore taglia qty now db2 r,
      scarica_vendita_colore db cod colore taglia qty now = .ok (db2, r) → dbNonNeg db2) ∧
    (∀ cod colore mappa, dbNonNeg (set_stock_colore db cod colore mappa)) ∧
    (∀ cod colore taglia n now, 0 ≤ n →
      dbNonNeg (aggiorna_taglia_colore db cod colore taglia n now)) ∧
    (∀ cod colore taglia n now,
      cellQty db cod (normStr colore) taglia ≠ none →
      cellQty (aggiorna_taglia_colore db cod colore taglia n now)
        cod (normStr colore) taglia = some n) ∧
    dbNonNeg (migrazione_colori db) := by
  refine ⟨fun cod colore tipo now => dbNonNeg_ensure db cod colore tipo now h,
    fun cod tipo now => dbNonNeg_reset db cod tipo now h,
    ?_, ?_,
    fun cod colore mappa => dbNonNeg_set_stock db cod colore mappa h,
    ?_, ?_, dbNonNeg_migrazione_loop db.prodotti db h⟩
  · intro cod colore taglia qty now db2 rv hok
    by_cases hlt : qty < 1
    · simp [carica_stock_colore, if_pos hlt] at hok
    rcases hf : db.taglie_prodotti.find? (matchCella cod (normStr colore) taglia)
      with _ | row
    · simp [carica_stock_colore, if_neg hlt, hf] at hok
    · simp only [carica_stock_colore, if_neg hlt, hf, Except.ok.injEq, Prod.mk.injEq] at hok
      obtain ⟨hdb2, -⟩ := hok
      rw [← hdb2]
      intro r hr
      obtain ⟨r0, hr0, rfl⟩ := List.mem_map.mp hr
      by_cases hm : matchCella cod (normStr colore) taglia r0 = true
      · rw [if_pos hm, qval]
        have := h r0 hr0
        rw [qval] at this
        simp only [Option.getD_some]
        omega
      · rw [if_neg hm]
        exact h r0 hr0
  · intro cod colore taglia qty now db2 rv hok
    by_cases hlt : qty < 1
    · simp [scarica_vendita_colore, if_pos hlt] at hok
    rcases hf : db.taglie_prodotti.find? (matchCella cod (normStr colore) taglia)
      with _ | row
    · simp [scarica_vendita_colore, if_neg hlt, hf] at hok
    · by_cases hins : row.quantita.getD 0 < qty
      · simp [scarica_vendita_colore, if_neg hlt, hf, if_pos hins] at hok
      · simp only [scarica_vendita_colore, if_neg hlt, hf, if_neg hins,
          Except.ok.injEq, Prod.mk.injEq] at hok
        obtain ⟨hdb2, -⟩ := hok
        rw [← hdb2]
        intro r hr
        obtain ⟨r0, hr0, rfl⟩ := List.mem_map.mp hr
        by_cases hm : matchCella cod (normStr colore) taglia r0 = true
        · rw [if_pos hm, qval]
          simp only [Option.getD_some]
          omega
        · rw [if_neg hm]
          exact h r0 hr0
  · intro cod colore taglia n now hn
    intro r hr
    obtain ⟨r0, hr0, rfl⟩ := List.mem_map.mp hr
    by_cases hm : matchCella cod (normStr colore) taglia r0 = true
    · rw [if_pos hm, qval]
      simpa using hn
    · rw [if_neg hm]
      exact h r0 hr0
  · intro cod colore taglia n now hcell
    obtain ⟨row, hfind⟩ : ∃ row,
        db.taglie_prodotti.find? (matchCella cod (normStr colore) taglia) = some row := by
      cases hf : db.taglie_prodotti.find? (matchCella cod (normStr colore) taglia) with
      | none =>
          exact absurd (by unfold cellQty; rw [hf]; rfl) hcell
      | some r => exact ⟨r, rfl⟩
    unfold cellQty
    show ((db.taglie_prodotti.map fun r =>
        if matchCella cod (normStr colore) taglia r then { r with quantita := some n }
        else r).find? (matchCella cod (normStr colore) taglia)).map qval = some n
    rw [show (fun r => if matchCella cod (normStr colore) taglia r then
          { r with quantita := some n } else r) =
        (fun r => if matchCella cod (normStr colore) taglia r then
          { r with quantita := (fun _ => some n) r } else r) from rfl]
    rw [find?_update_cella, hfind]
    have hmatch : matchCella cod (normStr colore) taglia row = true :=
      List.find?_some hfind
    simp [hmatch, qval]

/-- C2 counterexample: the single-cell update `aggiorna_taglia_colore`,
one of the operations the claim quantifies over, writes the requested
value unchecked: from a state where every quantity is non-negative
(the cell `(P1, Rosso, 42)` holds `0`), requesting `-1` leaves the cell
holding exactly `-1`, so the resulting state violates the invariant the
claim asserts every listed operation preserves. -/
theorem aggiorna_taglia_colore_negativo :
    dbNonNeg dbC2 ∧
    ¬ dbNonNeg (aggiorna_taglia_colore dbC2 "P1" "Rosso" "42" (-1) "t1") ∧
    cellQty (aggiorna_taglia_colore dbC2 "P1" "Rosso" "42" (-1) "t1")
      "P1" "Rosso" "42" = some (-1) := by decide

/-- Witness for the amended C2 at a concrete input. -/
theorem operazioni_non_negative_witness :
    dbNonNeg (ensure_stock_colore dbC2 "P1" "Blu" "LETTERE" "t2") :=
  (operazioni_non_negative dbC2 (by decide)).1 "P1" "Blu" "LETTERE" "t2"

/-! ## Legacy migration (C7, C8) -/

theorem rigaBlank_set_colore (p : Prodotto) (r : RigaTaglia) :
    rigaBlank { r with colore := some (derivaColore p) } = false := by
  simp only [rigaBlank, derivaColore, Option.getD_some, decide_eq_false_iff_not]
  exact sqlTrim_normStr_ne _

theorem migraRiga_not_blank (ps : List Prodotto) (r : RigaTaglia)
    (h : rigaBlank r = false) : migraRiga ps r = r := by
  induction ps with
  | nil => rfl
  | cons p ps ih =>
    simp only [migraRiga]
    rw [if_neg (by simp [h]), ih]

theorem migraRiga_cases (ps : List Prodotto) (r : RigaTaglia) :
    migraRiga ps r = r ∨ rigaBlank (migraRiga ps r) = false := by
  induction ps with
  | nil => exact Or.inl rfl
  | cons p ps ih =>
    by_cases h : r.codice_prodotto = p.codice ∧ rigaBlank r = true
    · right
      simp only [migraRiga]
      rw [if_pos h]
      exact rigaBlank_set_colore p r
    · simp only [migraRiga]
      rw [if_neg h]
      exact ih

theorem migraRiga_idem (ps : List Prodotto) (r : RigaTaglia) :
    migraRiga ps (migraRiga ps r) = migraRiga ps r := by
  rcases migraRiga_cases ps r with heq | hnb
  · rw [heq]
    exact heq
  · exact migraRiga_not_blank ps _ hnb

theorem migraRiga_comp (p : Prodotto) (ps : List Prodotto) (r : RigaTaglia) :
    migraRiga ps (migraRigaProdotto p r) = migraRiga (p :: ps) r := by
  by_cases h : r.codice_prodotto = p.codice ∧ rigaBlank r = true
  · have h1 : migraRigaProdotto p r = { r with colore := some (derivaColore p) } := by
      unfold migraRigaProdotto
      rw [if_pos h]
    have h2 : migraRiga (p :: ps) r = { r with colore := some (derivaColore p) } := by
      simp only [migraRiga]
      rw [if_pos h]
    rw [h1, h2]
    exact migraRiga_not_blank ps _ (rigaBlank_set_colore p r)
  · have h1 : migraRigaProdotto p r = r := by
      unfold migraRigaProdotto
      rw [if_neg h]
    have h2 : migraRiga (p :: ps) r = migraRiga ps r := by
      simp only [migraRiga]
      rw [if_neg h]
    rw [h1, h2]

theorem migrazione_loop_prodotti (ps : List Prodotto) (d : DB) :
    (ps.foldl migra_prodotto d).prodotti = d.prodotti := by
  induction ps generalizing d with
  | nil => rfl
  | cons p ps ih =>
    rw [List.foldl_cons, ih]
    rfl

theorem migrazione_loop_taglie (ps : List Prodotto) (d : DB) :
    (ps.foldl migra_prodotto d).taglie_prodotti =
      d.taglie_prodotti.map (migraRiga ps) := by
  induction ps generalizing d with
  | nil =>
    show d.taglie_prodotti = _
    rw [show migraRiga [] = fun r => r from funext (fun r => rfl), List.map_id']
  | cons p ps ih =>
    rw [List.foldl_cons, ih]
    show (d.taglie_prodotti.map (migraRigaProdotto p)).map (migraRiga ps) = _
    rw [List.map_map]
    congr 1
    funext r
    exact migraRiga_comp p ps r

theorem migrazione_loop_colori (ps : List Prodotto) (d : DB) :
    (ps.foldl migra_prodotto d).colori_prodotti =
      ps.foldl (fun l p => insertOrIgnoreColore l (p.codice, derivaColore p))
        d.colori_prodotti := by
  induction ps generalizing d with
  | nil => rfl
  | cons p ps ih =>
    rw [List.foldl_cons, ih]
    rfl

theorem mem_foldInsert_of_mem (ps : List Prodotto) (l : List (String × String))
    (x : String × String) (h : x ∈ l) :
    x ∈ ps.foldl (fun l p => insertOrIgnoreColore l (p.codice, derivaColore p)) l := by
  induction ps generalizing l with
  | nil => exact h
  | cons p ps ih =>
    rw [List.foldl_cons]
    exact ih _ (mem_insertOrIgnore_of_mem _ _ _ h)

theorem mem_foldInsert_self (ps : List Prodotto) (l : List (String × String))
    (p : Prodotto) (hp : p ∈ ps) :
    (p.codice, derivaColore p) ∈
      ps.foldl (fun l p => insertOrIgnoreColore l (p.codice, derivaColore p)) l := by
  induction ps generalizing l with
  | nil => simp at hp
  | cons u us ih =>
    rw [List.foldl_cons]
    rcases List.mem_cons.mp hp with rfl | hus
    · exact mem_foldInsert_of_mem _ _ _ (mem_insertOrIgnore_self _ _)
    · exact ih _ hus

theorem foldInsert_id (ps : List Prodotto) (l : List (String × String))
    (h : ∀ p ∈ ps, (p.codice, derivaColore p) ∈ l) :
    ps.foldl (fun l p => insertOrIgnoreColore l (p.codice, derivaColore p)) l = l := by
  induction ps with
  | nil => rfl
  | cons p ps ih =>
    rw [List.foldl_cons, insertOrIgnore_of_mem _ _ (h p (by simp))]
    exact ih (fun u hu => h u (by simp [hu]))

/-- C7: the legacy migration registers, for every product, the colour
derived as strip of the legacy field with `DEFAULT` for blank
(`derivaColore`), insert-if-absent, never removing existing
registrations; it rewrites the stock rows exactly by `migraRiga`, which
gives the derived colour only to rows of that product that are blank
(`NULL` or trimming to empty) and leaves every non-blank row untouched;
the product table is untouched; and running the migration a second time
changes nothing at all. -/
theorem migrazione_colori_spec (db : DB) :
    (∀ pc ∈ db.colori_prodotti, pc ∈ (migrazione_colori db).colori_prodotti) ∧
    (∀ p ∈ db.prodotti,
      (p.codice, derivaColore p) ∈ (migrazione_colori db).colori_prodotti) ∧
    (migrazione_colori db).prodotti = db.prodotti ∧
    (migrazione_colori db).taglie_prodotti =
      db.taglie_prodotti.map (migraRiga db.prodotti) ∧
    (∀ r, rigaBlank r = false → migraRiga db.prodotti r = r) ∧
    migrazione_colori (migrazione_colori db) = migrazione_colori db := by
  have hcol : (migrazione_colori db).colori_prodotti =
      db.prodotti.foldl (fun l p => insertOrIgnoreColore l (p.codice, derivaColore p))
        db.colori_prodotti := migrazione_loop_colori db.prodotti db
  have hprod : (migrazione_colori db).prodotti = db.prodotti :=
    migrazione_loop_prodotti db.prodotti db
  refine ⟨?_, ?_, hprod, migrazione_loop_taglie db.prodotti db,
    fun r h => migraRiga_not_blank db.prodotti r h, ?_⟩
  · intro pc hpc
    rw [hcol]
    exact mem_foldInsert_of_mem _ _ _ hpc
  · intro p hp
    rw [hcol]
    exact mem_foldInsert_self _ _ _ hp
  · show (migrazione_colori db).prodotti.foldl migra_prodotto (migrazione_colori db) =
      migrazione_colori db
    rw [hprod]
    refine DB.ext ?_ ?_ ?_
    · rw [migrazione_loop_prodotti, hprod]
    · rw [migrazione_loop_colori]
      apply foldInsert_id
      intro p hp
      rw [hcol]
      exact mem_foldInsert_self _ _ _ hp
    · have ht : (migrazione_colori db).taglie_prodotti =
          db.taglie_prodotti.map (migraRiga db.prodotti) :=
        migrazione_loop_taglie db.prodotti db
      rw [migrazione_loop_taglie, ht, List.map_map]
      congr 1
      funext r
      exact migraRiga_idem db.prodotti r

/-- Witness for C7 at a concrete input: the derived colour of the legacy
product ends up registered. -/
theorem migrazione_colori_spec_witness :
    ("P1", derivaColore ⟨"P1", some "Rosso", some "NUMERI", some 0, none⟩) ∈
      (migrazione_colori dbC7).colori_prodotti :=
  (migrazione_colori_spec dbC7).2.1 ⟨"P1", some "Rosso", some "NUMERI", some 0, none⟩
    (by decide)

/-! ### C8: failure isolation of the migration pass -/

theorem migrazione_try_loop_ok (fails : String → Bool) (ps : List Prodotto) (d : DB)
    (h : ∀ p ∈ ps, fails p.codice = false) :
    migrazione_try_loop fails ps d = ps.foldl migra_prodotto d := by
  induction ps generalizing d with
  | nil => rfl
  | cons p ps ih =>
    unfold migrazione_try_loop
    rw [h p (by simp), List.foldl_cons]
    exact ih _ (fun u hu => h u (by simp [hu]))

theorem migrazione_try_loop_split (fails : String → Bool) (ps1 : List Prodotto)
    (bad : Prodotto) (ps2 : List Prodotto) (d : DB)
    (h1 : ∀ p ∈ ps1, fails p.codice = false) (hbad : fails bad.codice = true) :
    migrazione_try_loop fails (ps1 ++ bad :: ps2) d = ps1.foldl migra_prodotto d := by
  induction ps1 generalizing d with
  | nil =>
    rw [List.nil_append]
    unfold migrazione_try_loop
    simp [hbad]
  | cons p ps1 ih =>
    show migrazione_try_loop fails (p :: (ps1 ++ bad :: ps2)) d = _
    unfold migrazione_try_loop
    rw [h1 p (by simp), List.foldl_cons]
    exact ih _ (fun u hu => h1 u (by simp [hu]))

/-- C8, amended: the `try/except` of `init_database` wraps the whole
migration loop, not its body.  When no product fails the pass equals the
full migration; but when some product fails, the products processed before
it keep their migration and the pass stops there — the products after the
failing one are NOT migrated (the single `except: pass` swallows the error
at the pass level). -/
theorem migrazione_try_spec (fails : String → Bool) (db : DB) :
    ((∀ p ∈ db.prodotti, fails p.codice = false) →
      migrazione_colori_try fails db = migrazione_colori db) ∧
    (∀ ps1 bad ps2, db.prodotti = ps1 ++ bad :: ps2 →
      (∀ p ∈ ps1, fails p.codice = false) → fails bad.codice = true →
      migrazione_colori_try fails db = ps1.foldl migra_prodotto db) := by
  constructor
  · intro h
    exact migrazione_try_loop_ok fails db.prodotti db h
  · intro ps1 bad ps2 hsplit h1 hbad
    unfold migrazione_colori_try
    rw [hsplit]
    exact migrazione_try_loop_split fails ps1 bad ps2 db h1 hbad

/-- C8 counterexample: with a failure on product `A` alone, product `B` is
not migrated — its colour `Blu` is never registered — although the
failure-free migration would register it.  Migration of the other products
does not take place, contradicting the claim. -/
theorem migrazione_try_non_isolata :
    ("B", "Blu") ∉ (migrazione_colori_try failsA dbC8).colori_prodotti ∧
    ("B", "Blu") ∈ (migrazione_colori dbC8).colori_prodotti := by decide

/-- Witness for the amended C8 at a concrete input: the pass with the
failure on `A` stops before migrating anything. -/
theorem migrazione_try_spec_witness :
    migrazione_colori_try failsA dbC8 = List.foldl migra_prodotto dbC8 [] :=
  (migrazione_try_spec failsA dbC8).2 []
    ⟨"A", some "Rosso", some "NUMERI", some 0, none⟩
    [⟨"B", some "Blu", some "NUMERI", some 0, none⟩] rfl
    (by intro p hp; simp at hp) (by decide)

/-! ## C9: `lista_colori` -/

/-- C9 (code bug): on a store that does contain the placeholder label,
`lista_colori` does not return the sorted colour list without `DEFAULT` —
it raises `NameError`, because line 203 of `backend.py` evaluates the
unbound local `colori` before `return rows` is reached (and the filtered
list would be discarded anyway, as the function returns `rows`). -/
theorem lista_colori_solleva :
    lista_colori dbC9 "P1" = Except.error "NameError" := rfl

/-! ## C10: `rinomina_colore` -/

theorem colore_registrato_iff (l : List (String × String)) (cod n : String) :
    (0 < l.countP (fun pc => decide (pc.1 = cod ∧ pc.2 = n))) ↔ (cod, n) ∈ l := by
  rw [List.countP_pos_iff]
  constructor
  · rintro ⟨pc, hm, hp⟩
    obtain ⟨a, b⟩ := pc
    simp only [decide_eq_true_eq] at hp
    obtain ⟨rfl, rfl⟩ := hp
    exact hm
  · intro h
    exact ⟨(cod, n), h, by simp⟩

/-- C10, amended: with stripped non-empty distinct labels, renaming
`vecchio` to `nuovo` always removes `vecchio` from the registrations,
keeps (merge case) or creates (rename case) the registration of `nuovo`
while keeping every other pair, re-points the stock so that the rows under
`nuovo` are exactly the former rows under `nuovo` plus the former rows
under `vecchio` (counts add, per size) and none remain under `vecchio`,
and touches the product timestamp.  Consequently at most one cell per
`(product, nuovo, size)` remains only when `vecchio` and `nuovo` together
had at most one cell for that size; when both had one, two cells result —
the duplicate the open design question of the spec describes. -/
theorem rinomina_colore_spec (db : DB) (cod vecchio nuovo now : String)
    (hv : pyStrip vecchio ≠ "") (hn : pyStrip nuovo ≠ "")
    (hvn : pyStrip vecchio ≠ pyStrip nuovo) :
    ((cod, pyStrip vecchio) ∉ (rinomina_colore db cod vecchio nuovo now).colori_prodotti) ∧
    (((cod, pyStrip vecchio) ∈ db.colori_prodotti ∨
        (cod, pyStrip nuovo) ∈ db.colori_prodotti) →
      (cod, pyStrip nuovo) ∈ (rinomina_colore db cod vecchio nuovo now).colori_prodotti) ∧
    (∀ pc ∈ db.colori_prodotti, ¬(pc.1 = cod ∧ pc.2 = pyStrip vecchio) →
      pc ∈ (rinomina_colore db cod vecchio nuovo now).colori_prodotti) ∧
    (∀ s, (rinomina_colore db cod vecchio nuovo now).taglie_prodotti.countP
        (matchCella cod (pyStrip nuovo) s) =
      db.taglie_prodotti.countP (matchCella cod (pyStrip nuovo) s) +
      db.taglie_prodotti.countP (matchCella cod (pyStrip vecchio) s)) ∧
    (∀ s, (rinomina_colore db cod vecchio nuovo now).taglie_prodotti.countP
        (matchCella cod (pyStrip vecchio) s) = 0) ∧
    (∀ s, db.taglie_prodotti.countP (matchCella cod (pyStrip nuovo) s) +
        db.taglie_prodotti.countP (matchCella cod (pyStrip vecchio) s) ≤ 1 →
      (rinomina_colore db cod vecchio nuovo now).taglie_prodotti.countP
        (matchCella cod (pyStrip nuovo) s) ≤ 1) ∧
    (∀ p ∈ (rinomina_colore db cod vecchio nuovo now).prodotti,
      p.codice = cod → p.updated_at = some now) := by
  have hguard : ¬ (pyStrip vecchio = "" ∨ pyStrip nuovo = "") := by
    rintro (h | h)
    · exact hv h
    · exact hn h
  have hrin : rinomina_colore db cod vecchio nuovo now =
      { prodotti := touchProdotto db.prodotti cod now,
        colori_prodotti :=
          if 0 < db.colori_prodotti.countP
              (fun pc => decide (pc.1 = cod ∧ pc.2 = pyStrip nuovo)) then
            db.colori_prodotti.filter
              (fun pc => decide (¬ (pc.1 = cod ∧ pc.2 = pyStrip vecchio)))
          else
            db.colori_prodotti.map (fun pc =>
              if pc.1 = cod ∧ pc.2 = pyStrip vecchio then (cod, pyStrip nuovo) else pc),
        taglie_prodotti := db.taglie_prodotti.map fun r =>
          if r.codice_prodotto = cod ∧ r.colore = some (pyStrip vecchio) then
            { r with colore := some (pyStrip nuovo) }
          else r } := by
    unfold rinomina_colore
    rw [if_neg hguard]
  have htag : ∀ s r,
      matchCella cod (pyStrip nuovo) s
        (if r.codice_prodotto = cod ∧ r.colore = some (pyStrip vecchio) then
          { r with colore := some (pyStrip nuovo) }
        else r) =
      (matchCella cod (pyStrip vecchio) s r || matchCella cod (pyStrip nuovo) s r) := by
    intro s r
    by_cases hc : r.codice_prodotto = cod ∧ r.colore = some (pyStrip vecchio)
    · rw [if_pos hc]
      obtain ⟨h1, h2⟩ := hc
      by_cases ht : r.taglia = s
      · simp [matchCella, h1, h2, ht, hvn]
      · simp [matchCella, h1, h2, ht]
    · rw [if_neg hc]
      by_cases hvm : matchCella cod (pyStrip vecchio) s r = true
      · exact absurd ⟨((matchCella_iff _ _ _ _).mp hvm).1,
          ((matchCella_iff _ _ _ _).mp hvm).2.1⟩ hc
      · simp only [Bool.not_eq_true] at hvm
        rw [hvm]
        simp
  have htagv : ∀ s r,
      matchCella cod (pyStrip vecchio) s
        (if r.codice_prodotto = cod ∧ r.colore = some (pyStrip vecchio) then
          { r with colore := some (pyStrip nuovo) }
        else r) = false := by
    intro s r
    by_cases hc : r.codice_prodotto = cod ∧ r.colore = some (pyStrip vecchio)
    · rw [if_pos hc]
      simp [matchCella]
      intro _ hcol
      exact absurd hcol.symm (by simpa using hvn)
    · rw [if_neg hc]
      by_cases hvm : matchCella cod (pyStrip vecchio) s r = true
      · exact absurd ⟨((matchCella_iff _ _ _ _).mp hvm).1,
          ((matchCella_iff _ _ _ _).mp hvm).2.1⟩ hc
      · simpa using hvm
  have hcount : ∀ s, (rinomina_colore db cod vecchio nuovo now).taglie_prodotti.countP
      (matchCella cod (pyStrip nuovo) s) =
      db.taglie_prodotti.countP (matchCella cod (pyStrip nuovo) s) +
      db.taglie_prodotti.countP (matchCella cod (pyStrip vecchio) s) := by
    intro s
    rw [hrin]
    show (db.taglie_prodotti.map _).countP _ = _
    rw [List.countP_map]
    have hfun : ((matchCella cod (pyStrip nuovo) s) ∘ (fun r =>
        if r.codice_prodotto = cod ∧ r.colore = some (pyStrip vecchio) then
          { r with colore := some (pyStrip nuovo) }
        else r)) = fun r => (matchCella cod (pyStrip vecchio) s r ||
          matchCella cod (pyStrip nuovo) s r) := funext (fun r => htag s r)
    rw [hfun, countP_or_disj]
    · rw [Nat.add_comm]
    · intro x _ hboth
      have hx1 := (matchCella_iff _ _ _ _).mp hboth.1
      have hx2 := (matchCella_iff _ _ _ _).mp hboth.2
      rw [hx1.2.1] at hx2
      exact hvn (Option.some.inj hx2.2.1)
  refine ⟨?_, ?_, ?_, hcount, ?_, ?_, ?_⟩
  · rw [hrin]
    show (cod, pyStrip vecchio) ∉
      (if 0 < db.colori_prodotti.countP
          (fun pc => decide (pc.1 = cod ∧ pc.2 = pyStrip nuovo)) then
        db.colori_prodotti.filter
          (fun pc => decide (¬ (pc.1 = cod ∧ pc.2 = pyStrip vecchio)))
      else
        db.colori_prodotti.map (fun pc =>
          if pc.1 = cod ∧ pc.2 = pyStrip vecchio then (cod, pyStrip nuovo) else pc))
    by_cases hex : 0 < db.colori_prodotti.countP
        (fun pc => decide (pc.1 = cod ∧ pc.2 = pyStrip nuovo))
    · rw [if_pos hex]
      intro hmem
      exact absurd (List.mem_filter.mp hmem).2 (by simp)
    · rw [if_neg hex]
      intro hmem
      obtain ⟨pc, hpc, heq⟩ := List.mem_map.mp hmem
      by_cases hc : pc.1 = cod ∧ pc.2 = pyStrip vecchio
      · rw [if_pos hc] at heq
        have := congrArg Prod.snd heq
        simp only at this
        exact hvn this.symm
      · rw [if_neg hc] at heq
        apply hc
        rw [heq]
        exact ⟨rfl, rfl⟩
  · intro hor
    rw [hrin]
    show (cod, pyStrip nuovo) ∈
      (if 0 < db.colori_prodotti.countP
          (fun pc => decide (pc.1 = cod ∧ pc.2 = pyStrip nuovo)) then
        db.colori_prodotti.filter
          (fun pc => decide (¬ (pc.1 = cod ∧ pc.2 = pyStrip vecchio)))
      else
        db.colori_prodotti.map (fun pc =>
          if pc.1 = cod ∧ pc.2 = pyStrip vecchio then (cod, pyStrip nuovo) else pc))
    by_cases hex : 0 < db.colori_prodotti.countP
        (fun pc => decide (pc.1 = cod ∧ pc.2 = pyStrip nuovo))
    · rw [if_pos hex]
      refine List.mem_filter.mpr ⟨(colore_registrato_iff _ _ _).mp hex, ?_⟩
      simp [Ne.symm hvn]
    · rw [if_neg hex]
      have hnmem : (cod, pyStrip nuovo) ∉ db.colori_prodotti := fun hmem =>
        hex ((colore_registrato_iff _ _ _).mpr hmem)
      have hvmem : (cod, pyStrip vecchio) ∈ db.colori_prodotti := by
        rcases hor with h | h
        · exact h
        · exact absurd h hnmem
      refine List.mem_map.mpr ⟨(cod, pyStrip vecchio), hvmem, ?_⟩
      rw [if_pos ⟨rfl, rfl⟩]
  · intro pc hpc hne
    rw [hrin]
    show pc ∈
      (if 0 < db.colori_prodotti.countP
          (fun pc => decide (pc.1 = cod ∧ pc.2 = pyStrip nuovo)) then
        db.colori_prodotti.filter
          (fun pc => decide (¬ (pc.1 = cod ∧ pc.2 = pyStrip vecchio)))
      else
        db.colori_prodotti.map (fun pc =>
          if pc.1 = cod ∧ pc.2 = pyStrip vecchio then (cod, pyStrip nuovo) else pc))
    by_cases hex : 0 < db.colori_prodotti.countP
        (fun pc => decide (pc.1 = cod ∧ pc.2 = pyStrip nuovo))
    · rw [if_pos hex]
      refine List.mem_filter.mpr ⟨hpc, ?_⟩
      rw [decide_eq_true_eq]
      exact hne
    · rw [if_neg hex]
      exact List.mem_map.mpr ⟨pc, hpc, by rw [if_neg hne]⟩
  · intro s
    rw [hrin]
    show (db.taglie_prodotti.map _).countP _ = 0
    rw [List.countP_map]
    rw [show ((matchCella cod (pyStrip vecchio) s) ∘ (fun r =>
        if r.codice_prodotto = cod ∧ r.colore = some (pyStrip vecchio) then
          { r with colore := some (pyStrip nuovo) }
        else r)) = fun _ => false from funext (fun r => htagv s r)]
    simp
  · intro s hle
    rw [hcount s]
    exact hle
  · intro p hp hcod
    rw [hrin] at hp
    obtain ⟨p0, hp0, rfl⟩ := List.mem_map.mp hp
    by_cases hc : p0.codice = cod
    · rw [if_pos hc]
    · rw [if_neg hc] at hcod
      exact absurd hcod hc

/-- C10 counterexample: before the rename there is exactly one cell per
key; `B` is already registered, so the merge path runs; afterwards TWO
cells exist for `(P1, B, M)` — the merge does create duplicate
StockCells, contrary to the claim. -/
theorem rinomina_colore_duplica :
    dbC10.taglie_prodotti.countP (matchCella "P1" "A" "M") = 1 ∧
    dbC10.taglie_prodotti.countP (matchCella "P1" "B" "M") = 1 ∧
    ("P1", "B") ∈ dbC10.colori_prodotti ∧
    (rinomina_colore dbC10 "P1" "A" "B" "t1").taglie_prodotti.countP
      (matchCella "P1" "B" "M") = 2 := by decide

/-- Witness for the amended C10 at a concrete input: after the merge no
cell remains under the old colour. -/
theorem rinomina_colore_spec_witness :
    (rinomina_colore dbC10 "P1" "A" "B" "t1").taglie_prodotti.countP
      (matchCella "P1" (pyStrip "A") "M") = 0 :=
  (rinomina_colore_spec dbC10 "P1" "A" "B" "t1"
    (by decide) (by decide) (by decide)).2.2.2.2.1 "M"

end Magazzino
